import Mathlib

/-!
Verification of the dask-gateway jobqueue cluster-manager code against its
natural-language specification.  The Python sources embedded here are:

* `dask_gateway_server/managers/jobqueue/base.py`  (`JobQueueClusterManager`)
* `dask_gateway_server/managers/jobqueue/slurm.py` (`SlurmClusterManager`)
* `tests/test_gateway.py` (`FailStartClusterManager`)

Python strings are modelled as Lean `String`s; the Python string operations
used by the code (`str.split()`, `str.splitlines()`, `str.strip()`, the `in`
substring test, `list.extend(str)`) are re-implemented below by structural
recursion over the character list so that every definition evaluates inside
the kernel.  Python dicts with string keys are modelled as association lists,
and code that can raise is modelled with `Except`.
-/

namespace DaskGateway

/-! ### Python string primitives -/

/-- Characters of a one-character string, used to model Python iteration over
a string (each element of the iteration is a 1-character string). -/
def charStr (c : Char) : String :=
  String.mk [c]

/-- Model of Python `list.extend(s)` for a string `s`: the string is iterated
character by character, so the list is extended with one-character strings. -/
def pyExtendStr (s : String) : List String :=
  s.data.map charStr

/-- Split a character list at newline characters (auxiliary for
`pySplitLines`); produces the pieces between newlines, including empty
pieces and a trailing piece. -/
def splitNlAux : List Char → List Char → List (List Char)
  | [], acc => [acc.reverse]
  | c :: cs, acc =>
    if c = '\n' then acc.reverse :: splitNlAux cs [] else splitNlAux cs (c :: acc)

/-- Model of Python `str.splitlines()` (for `\n`-separated text): split at
newlines, with no trailing empty line for text ending in a newline. -/
def pySplitLines (s : String) : List String :=
  let parts := splitNlAux s.data []
  (if parts.getLast? = some [] then parts.dropLast else parts).map String.mk

/-- Split a character list at whitespace, dropping empty pieces (auxiliary
for `pySplitWhitespace`). -/
def splitWsAux : List Char → List Char → List (List Char)
  | [], acc => if acc = [] then [] else [acc.reverse]
  | c :: cs, acc =>
    if c.isWhitespace then
      (if acc = [] then splitWsAux cs [] else acc.reverse :: splitWsAux cs [])
    else splitWsAux cs (c :: acc)

/-- Model of Python `str.split()` with no argument: split at runs of
whitespace, never producing empty fields. -/
def pySplitWhitespace (s : String) : List String :=
  (splitWsAux s.data []).map String.mk

/-- Drop leading whitespace characters. -/
def dropWs : List Char → List Char
  | [] => []
  | c :: cs => if c.isWhitespace then dropWs cs else c :: cs

/-- Model of Python `str.strip()`: remove leading and trailing whitespace. -/
def pyStrip (s : String) : String :=
  String.mk ((dropWs (dropWs s.data).reverse).reverse)

/-- Does the pattern occur at the head of the character list? -/
def matchesHead : List Char → List Char → Bool
  | [], _ => true
  | _ :: _, [] => false
  | p :: ps, c :: cs => if p = c then matchesHead ps cs else false

/-- Does the pattern occur anywhere in the character list? -/
def findSub (pat : List Char) : List Char → Bool
  | [] => matchesHead pat []
  | c :: cs => matchesHead pat (c :: cs) || findSub pat cs

/-- Model of the Python substring test `pat in s`. -/
def strContains (s pat : String) : Bool :=
  findSub pat.data s.data

/-- Lexicographic code-point comparison of character lists (auxiliary for
`strLe`). -/
def charListLe : List Char → List Char → Bool
  | [], _ => true
  | _ :: _, [] => false
  | a :: as, b :: bs =>
    if a.toNat < b.toNat then true
    else if a.toNat = b.toNat then charListLe as bs
    else false

/-- Python's `<=` on strings: lexicographic comparison by code point. -/
def strLe (s t : String) : Bool :=
  charListLe s.data t.data

/-- Insert a string into a sorted list of strings (auxiliary for
`sortStrings`). -/
def insertSorted (s : String) : List String → List String
  | [] => [s]
  | t :: ts => if strLe s t then s :: t :: ts else t :: insertSorted s ts

/-- Model of Python `sorted` on a list of strings. -/
def sortStrings (l : List String) : List String :=
  l.foldr insertSorted []

/-- Lookup in an association list, modelling Python `dict.get` /
`dict[k]` for string-keyed dicts. -/
def alistGet {α : Type} (k : String) : List (String × α) → Option α
  | [] => none
  | (k', v) :: rest => if k' = k then some v else alistGet k rest

/-! ### slurm.py: `slurm_format_memory` (claim C5)

The Python function divides with `/` (true division producing an IEEE-754
double) before applying `math.ceil`.  For an integer `n`, the correctly
rounded double value of `n / 2^k` equals (exact rational) `fl(n) / 2^k`,
where `fl` rounds `n` to 53 significant bits with ties to even, because
dividing by a power of two only shifts the exponent and all quotients
reached here are normal.  `math.ceil` of that double is then the exact
integer ceiling of `fl(n) / 2^k`, i.e. `cdiv (floatRound53 n) (2^k)`.
-/

/-- Integer ceiling division, the exact value of `math.ceil(a / b)` when the
division is exact rational arithmetic. -/
def cdiv (a b : Nat) : Nat :=
  (a + b - 1) / b

/-- Round a natural number to 53 significant bits, ties to even: the value of
the IEEE-754 double nearest to `n` (for `n` below the overflow threshold
`2^1024`, far beyond any byte count).  Below `2^53` every natural is exact. -/
def floatRound53 (n : Nat) : Nat :=
  if n < 2 ^ 53 then n
  else
    (n / 2 ^ (Nat.log2 n - 52) +
      (if 2 ^ (Nat.log2 n - 52) < 2 * (n % 2 ^ (Nat.log2 n - 52)) ∨
          (2 * (n % 2 ^ (Nat.log2 n - 52)) = 2 ^ (Nat.log2 n - 52) ∧
            n / 2 ^ (Nat.log2 n - 52) % 2 = 1)
       then 1 else 0)) * 2 ^ (Nat.log2 n - 52)

/-- Embeds `slurm_format_memory` (slurm.py lines 13-21).  Each branch value
is `math.ceil(n / 1024**k)` computed in double precision, which equals
`cdiv (floatRound53 n) (1024^k)` as explained above; the threshold
comparisons are exact integer comparisons in Python. -/
def slurm_format_memory (n : Nat) : String :=
  if n ≥ 10 * 1024 ^ 3 then toString (cdiv (floatRound53 n) (1024 ^ 3)) ++ "G"
  else if n ≥ 10 * 1024 ^ 2 then toString (cdiv (floatRound53 n) (1024 ^ 2)) ++ "M"
  else if n ≥ 10 * 1024 then toString (cdiv (floatRound53 n) 1024) ++ "K"
  else "1K"

/-- The spec's description of the memory formatter ("ceiling rounding ...
exactly as an integer computation"), for comparison with the embedded code:
the same thresholds with exact integer ceiling division. -/
def slurm_format_memory_spec (n : Nat) : String :=
  if n ≥ 10 * 1024 ^ 3 then toString (cdiv n (1024 ^ 3)) ++ "G"
  else if n ≥ 10 * 1024 ^ 2 then toString (cdiv n (1024 ^ 2)) ++ "M"
  else if n ≥ 10 * 1024 then toString (cdiv n 1024) ++ "K"
  else "1K"

/-! ### slurm.py: `SlurmClusterManager.get_submit_cmd_env_stdin` (claim C3) -/

/-- The configurable traits of `SlurmClusterManager` used by the submit
command builder. -/
structure SlurmConfig where
  submit_command : String
  partition : String
  account : String
  qos : String

/-- The error value of a Python runtime error raised while building the
submit command (`AttributeError`: a `list` object has no attribute
`account`). -/
inductive PyError where
  | attributeError (msg : String)
deriving DecidableEq

/-- Embeds the command-list construction of
`SlurmClusterManager.get_submit_cmd_env_stdin` (slurm.py lines 45-83).
Quantities produced by code outside `src/` (`get_env`, the core/memory
traits, the staging directory) enter as the parameters `staging_dir`,
`log_file`, `cpus`, `mem` and `envKeys` (the keys of the environment dict),
from which the tail of the command list is built exactly as in the source.
The source line `cmd.account("--account=" + self.account)` raises
`AttributeError` (a Python list has no `account` method), modelled by the
`.error` branch; the line `cmd.extend("--qos=" + self.qos)` extends the list
with the characters of the string (`pyExtendStr`). -/
def get_submit_cmd_env_stdin (cfg : SlurmConfig) (staging_dir log_file : String)
    (cpus : Nat) (mem : String) (envKeys : List String) :
    Except PyError (List String) :=
  let cmd := [cfg.submit_command, "--parsable", "--job-name=dask-gateway"]
  let cmd := if cfg.partition ≠ "" then cmd ++ ["--partition=" ++ cfg.partition] else cmd
  if cfg.account ≠ "" then
    .error (.attributeError "list object has no attribute account")
  else
    let cmd := if cfg.qos ≠ "" then cmd ++ pyExtendStr ("--qos=" ++ cfg.qos) else cmd
    .ok (cmd ++
      ["--chdir=" ++ staging_dir,
       "--output=" ++ staging_dir ++ "/" ++ log_file,
       "--cpus-per-task=" ++ toString cpus,
       "--mem=" ++ mem,
       "--export=" ++ String.intercalate "," (sortStrings envKeys)])

/-! ### slurm.py: `SlurmClusterManager.parse_job_states` (claim C4) -/

/-- Parse the lines of the `squeue` output into `(job_id, state)` pairs:
each line is whitespace-split and unpacked into exactly two fields
(`job_id, state = l.split()`); any other field count raises `ValueError`. -/
def parsedLines : List String → Except String (List (String × String))
  | [] => .ok []
  | l :: rest =>
    match pySplitWhitespace l with
    | [job_id, state] =>
      match parsedLines rest with
      | .error e => .error e
      | .ok ps => .ok ((job_id, state) :: ps)
    | _ => .error "ValueError: unpacking"

/-- The classification loop of `parse_job_states`: states `R`/`CG` go to the
running list, `PD`/`CF` to neither, anything else to the failed list, in
source order. -/
def classifyLines : List (String × String) → List String × List String
  | [] => ([], [])
  | (job_id, state) :: rest =>
    if state = "R" ∨ state = "CG" then
      (job_id :: (classifyLines rest).1, (classifyLines rest).2)
    else if state = "PD" ∨ state = "CF" then classifyLines rest
    else ((classifyLines rest).1, job_id :: (classifyLines rest).2)

/-- Embeds `SlurmClusterManager.parse_job_states` (slurm.py lines 95-105):
split the output into lines, unpack each into `(job_id, state)` and
classify. -/
def parse_job_states (stdout : String) : Except String (List String × List String) :=
  match parsedLines (pySplitLines stdout) with
  | .error e => .error e
  | .ok ps => .ok (classifyLines ps)

/-! ### base.py: `JobQueueClusterManager` launcher protocol (claims C2, C6, C7) -/

/-- The JSON document printed by the `dask-gateway-jobqueue-launcher` helper:
either `{ok: true, returncode, stdout, stderr}` or `{ok: false, error}`. -/
inductive LauncherResponse where
  | ok (returncode : Int) (stdout stderr : String)
  | err (error : String)
deriving DecidableEq

/-- The exceptions raised by the jobqueue manager methods.
`launcherFailed` is the `Exception` raised when the launcher process itself
exits nonzero (base.py lines 131-137); `reported` is
`Exception(result["error"])` for an `ok: false` response (line 140);
`jsonDecodeFailed` is the `json.loads` error on undecodable stdout (line
138); `submitFailed` is raised by `start_job` on a nonzero submit exit code
(lines 165-174); `jobFailed` is raised by `start_cluster`/`start_worker`
when the job is reported dead (lines 248-252, 263-267); `stopFailed` is the
exception escaping `stop_job` when the cancel command fails (lines 192-195;
in the source the `%`-format of that message itself raises `TypeError`, but
either way an exception propagates). -/
inductive JQError where
  | launcherFailed (returncode : Int) (stdout stderr : String)
  | reported (error : String)
  | jsonDecodeFailed
  | submitFailed (exit_code : Int) (stdout stderr : String)
  | jobFailed (msg : String)
  | stopFailed (job_id : String)
deriving DecidableEq

/-- Embeds `JobQueueClusterManager.do_as_user` (base.py lines 117-141).
The subprocess outcome enters as `procReturncode`, `stdout`, `stderr`;
`decode` models `json.loads` (returning `none` on undecodable text).  The
returncode of the launcher process is checked before any decoding; only a
zero returncode with an `ok` response returns the reported triple. -/
def do_as_user (decode : String → Option LauncherResponse)
    (procReturncode : Int) (stdout stderr : String) :
    Except JQError (Int × String × String) :=
  if procReturncode ≠ 0 then
    .error (.launcherFailed procReturncode stdout stderr)
  else
    match decode stdout with
    | none => .error .jsonDecodeFailed
    | some (.err e) => .error (.reported e)
    | some (.ok code out err) => .ok (code, out, err)

/-- Embeds `SlurmClusterManager.parse_job_id` (slurm.py lines 92-93):
`stdout.strip()`. -/
def parse_job_id (stdout : String) : String :=
  pyStrip stdout

/-- Embeds `JobQueueClusterManager.start_job` (base.py lines 143-175),
restricted to the submission outcome: run the submit command through
`do_as_user`; a nonzero exit code of the submit command is an error,
otherwise the job id is parsed from stdout. -/
def start_job (decode : String → Option LauncherResponse)
    (procReturncode : Int) (stdout stderr : String) : Except JQError String :=
  match do_as_user decode procReturncode stdout stderr with
  | .error e => .error e
  | .ok (code, out, err) =>
    if code ≠ 0 then .error (.submitFailed code out err)
    else .ok (parse_job_id out)

/-- Embeds `JobQueueClusterManager.stop_job` (base.py lines 177-195): run
the cancel command through `do_as_user`; a nonzero exit code whose stderr
does not contain `"Job has finished"` raises, anything else succeeds. -/
def stop_job (decode : String → Option LauncherResponse)
    (procReturncode : Int) (stdout stderr : String) (job_id : String) :
    Except JQError Unit :=
  match do_as_user decode procReturncode stdout stderr with
  | .error e => .error e
  | .ok (code, _, err) =>
    if code ≠ 0 ∧ strContains err "Job has finished" = false then
      .error (.stopFailed job_id)
    else .ok ()

/-- A cluster or worker `state` dict of the jobqueue backend
(`{"job_id": ...}`). -/
abbrev JobState := List (String × String)

/-- The subprocess outcome (process returncode, stdout, stderr) of one
launcher invocation, keyed by the job id the cancel command is given. -/
abbrev LauncherRun := String → Int × String × String

/-- Embeds `JobQueueClusterManager.stop_cluster` (base.py lines 254-258):
`cluster_state.get("job_id")`; if absent return immediately, otherwise stop
the job.  The returned list records the job ids for which the cancel
command was invoked (empty when the method returns without invoking it). -/
def stop_cluster (decode : String → Option LauncherResponse) (launch : LauncherRun)
    (cluster_state : JobState) : Except JQError (List String) :=
  match alistGet "job_id" cluster_state with
  | none => .ok []
  | some job_id =>
    match stop_job decode (launch job_id).1 (launch job_id).2.1 (launch job_id).2.2 job_id with
    | .error e => .error e
    | .ok _ => .ok [job_id]

/-- Embeds `JobQueueClusterManager.stop_worker` (base.py lines 269-273):
identical to `stop_cluster` but reading `worker_state`. -/
def stop_worker (decode : String → Option LauncherResponse) (launch : LauncherRun)
    (worker_state : JobState) : Except JQError (List String) :=
  match alistGet "job_id" worker_state with
  | none => .ok []
  | some job_id =>
    match stop_job decode (launch job_id).1 (launch job_id).2.1 (launch job_id).2.2 job_id with
    | .error e => .error e
    | .ok _ => .ok [job_id]

/-- The cluster identity handed to the manager methods (`cluster_info`). -/
structure ClusterInfo where
  cluster_name : String
  username : String

/-- Embeds the async generator `JobQueueClusterManager.start_cluster`
(base.py lines 245-252) as its trace: the list of yielded state snapshots
together with the final outcome.  The submission outcome enters through the
`start_job` parameters; `verdict` is the value the awaited
`is_job_running(job_id)` future resolves to.  On successful submission the
generator yields exactly `{"job_id": job_id}` and then either finishes
(verdict true) or raises an exception naming the job and the cluster. -/
def start_cluster (info : ClusterInfo) (decode : String → Option LauncherResponse)
    (procReturncode : Int) (stdout stderr : String) (verdict : Bool) :
    List JobState × Except JQError Unit :=
  match start_job decode procReturncode stdout stderr with
  | .error e => ([], .error e)
  | .ok job_id =>
    ([[("job_id", job_id)]],
     if verdict then .ok ()
     else .error (.jobFailed ("Job " ++ job_id ++ " for cluster " ++
       info.cluster_name ++ " failed, see logs for more information")))

/-- Embeds the async generator `JobQueueClusterManager.start_worker`
(base.py lines 260-267), symmetric to `start_cluster` with the worker name
in the failure message. -/
def start_worker (worker_name : String) (decode : String → Option LauncherResponse)
    (procReturncode : Int) (stdout stderr : String) (verdict : Bool) :
    List JobState × Except JQError Unit :=
  match start_job decode procReturncode stdout stderr with
  | .error e => ([], .error e)
  | .ok job_id =>
    ([[("job_id", job_id)]],
     if verdict then .ok ()
     else .error (.jobFailed ("Job " ++ job_id ++ " for worker " ++
       worker_name ++ " failed, see logs for more information")))

/-! ### base.py: job tracking (claims C8, C9, C10)

The tracker's mutable state: `jobs_to_track` (the weak-valued dict from job
id to an asyncio future), the lazily created `job_tracker` background task,
and the futures themselves.  Futures are modelled by identifier (`Nat`),
allocated from the counter `nextSlot`; `resolved` records every
`fut.set_result(verdict)` call.  `hasTracker` models
`hasattr(self, "job_tracker")` and `tasksCreated` counts the
`task_pool.create_background_task` calls. -/

/-- The tracker state of a `JobQueueClusterManager` instance. -/
structure TrackerState where
  hasTracker : Bool
  tasksCreated : Nat
  jobs : List (String × Nat)
  nextSlot : Nat
  resolved : List (Nat × Bool)
deriving DecidableEq

/-- The second half of `is_job_running` (base.py lines 238-243): return the
future installed for `job_id` in `jobs_to_track`, installing a fresh one
(`loop.create_future()`, modelled by allocating slot `nextSlot`) when the
id has no entry. -/
def getOrInstallFuture (st : TrackerState) (job_id : String) : TrackerState × Nat :=
  match alistGet job_id st.jobs with
  | some fut => (st, fut)
  | none =>
    ({ st with jobs := (job_id, st.nextSlot) :: st.jobs, nextSlot := st.nextSlot + 1 },
     st.nextSlot)

/-- Embeds `JobQueueClusterManager.is_job_running` (base.py lines 231-243):
on the first call ever (`not hasattr(self, "job_tracker")`), create the
empty `jobs_to_track` dict and spawn the background tracker task; then
return the future installed for `job_id`, installing a fresh one if the id
has no entry. -/
def is_job_running (st : TrackerState) (job_id : String) : TrackerState × Nat :=
  if st.hasTracker then getOrInstallFuture st job_id
  else
    getOrInstallFuture
      { st with hasTracker := true, tasksCreated := st.tasksCreated + 1, jobs := [] }
      job_id

/-- Embeds the body of the resolution loops in
`JobQueueClusterManager.job_state_tracker` (base.py lines 220-227):
`fut = self.jobs_to_track.pop(job_id, None); if fut: fut.set_result(v)`.
An id without an entry (it may have disappeared from the weakly held dict)
leaves the state untouched. -/
def resolveJob (st : TrackerState) (job_id : String) (verdict : Bool) : TrackerState :=
  match alistGet job_id st.jobs with
  | none => st
  | some fut =>
    { st with jobs := st.jobs.filter (fun p => p.1 ≠ job_id),
              resolved := (fut, verdict) :: st.resolved }

/-- Embeds one iteration of the polling loop
`JobQueueClusterManager.job_state_tracker` (base.py lines 197-229).  If
`jobs_to_track` is empty nothing happens; otherwise the status command is
invoked with the tracked job ids (`classify` models running the status
command and `parse_job_states` on its output), and every running id is
resolved `true`, every failed id `false`.  The first component records the
id lists the status command was invoked with during the tick. -/
def job_state_tracker_tick (st : TrackerState)
    (classify : List String → List String × List String) :
    List (List String) × TrackerState :=
  if st.jobs.isEmpty then ([], st)
  else
    let ids := st.jobs.map Prod.fst
    let st1 := (classify ids).1.foldl (fun s j => resolveJob s j true) st
    let st2 := (classify ids).2.foldl (fun s j => resolveJob s j false) st1
    ([ids], st2)

/-- The reachable-state invariant of the tracker: every installed future and
every resolved future was allocated below `nextSlot`, no two installed
entries share a future, and no installed future has been resolved (this
last conjunct is claim C10's invariant). -/
def TrackerInv (st : TrackerState) : Prop :=
  (∀ p ∈ st.jobs, p.2 < st.nextSlot) ∧
  (∀ q ∈ st.resolved, q.1 < st.nextSlot) ∧
  (st.jobs.map Prod.snd).Nodup ∧
  (∀ p ∈ st.jobs, ∀ q ∈ st.resolved, p.2 ≠ q.1)

/-! ### test_gateway.py: `FailStartClusterManager` and the lifecycle engine
(claim C1) -/

/-- A state snapshot yielded by the test managers (`{"i": i}`). -/
abbrev TestState := List (String × Nat)

/-- Auxiliary loop of `failStart_run`: `for i in range(fuel): if i ==
fail_stage: raise ValueError; yield {"i": i}`.  Returns the yielded
snapshots and whether the generator raised. -/
def failStartYields : Nat → Nat → Nat → List TestState × Bool
  | 0, _, _ => ([], false)
  | fuel + 1, i, fail_stage =>
    if i = fail_stage then ([], true)
    else
      ([("i", i)] :: (failStartYields fuel (i + 1) fail_stage).1,
       (failStartYields fuel (i + 1) fail_stage).2)

/-- Embeds the trace of `FailStartClusterManager.start_cluster`
(test_gateway.py lines 39-43): `for i in range(3)`, raising at
`fail_stage`. -/
def failStart_run (fail_stage : Nat) : List TestState × Bool :=
  failStartYields 3 0 fail_stage

/-- Modelled from the spec: the Lifecycle Engine (spec §4.6.1 step 2 and
step 6) lives in `dask_gateway_server/app.py`, which is not under `src/`.
Per the spec, the engine persists each yielded snapshot as the last-seen
state (initially the empty state `{}`), and on a start failure invokes
`stop_cluster` with that last-seen state.  Given a start trace, this
returns the state handed to `stop_cluster`, or `none` when the start
completed without failure (no cleanup triggered by the start itself). -/
def engineStopState (trace : List TestState × Bool) : Option TestState :=
  if trace.2 then some ((trace.1.getLast?).getD []) else none

/-! ## Helper lemmas -/

theorem floatRound53_eq_self {n : Nat} (h : n ≤ 2 ^ 53) : floatRound53 n = n := by
  rcases Nat.lt_or_ge n (2 ^ 53) with h' | h'
  · unfold floatRound53
    rw [if_pos h']
  · have hn : n = 2 ^ 53 := le_antisymm h h'
    subst hn
    have hlog : Nat.log2 (2 ^ 53) = 53 := by
      rw [Nat.log2_eq_log_two]
      exact Nat.log_eq_of_pow_le_of_lt_pow (by norm_num) (by norm_num)
    unfold floatRound53
    rw [if_neg (by norm_num), hlog]
    norm_num

theorem matchesHead_self_append (p r : List Char) : matchesHead p (p ++ r) = true := by
  induction p with
  | nil => rfl
  | cons c cs ih => simpa [matchesHead] using ih

theorem findSub_append_left (l p r : List Char) (h : findSub p r = true) :
    findSub p (l ++ r) = true := by
  induction l with
  | nil => simpa using h
  | cons c cs ih =>
    show (matchesHead p (c :: (cs ++ r)) || findSub p (cs ++ r)) = true
    rw [ih]
    exact Bool.or_true _

theorem findSub_self_append (p r : List Char) : findSub p (p ++ r) = true := by
  cases p with
  | nil =>
    cases r with
    | nil => rfl
    | cons c cs => rfl
  | cons c cs =>
    show (matchesHead (c :: cs) (c :: cs ++ r) || _) = true
    rw [matchesHead_self_append]
    rfl

theorem strContains_parts (s a pat b : String)
    (h : s.data = a.data ++ (pat.data ++ b.data)) : strContains s pat = true := by
  unfold strContains
  rw [h]
  exact findSub_append_left _ _ _ (findSub_self_append _ _)

/-! ## Claim C1 -/

/-- Claim C1: for a staged cluster start that fails, the cleanup call
receives exactly the last yielded state: the engine hands `stop_cluster`
the last snapshot of the trace (or the empty state `{}` when the backend
raised before the first yield); for `FailStartClusterManager` with
`fail_stage = 0` that is `{}`, and with `fail_stage = 1` it is `{i: 0}`. -/
theorem C1_failing_start_cleanup_state :
    (∀ snaps : List TestState,
       engineStopState (snaps, true) = some ((snaps.getLast?).getD [])) ∧
    engineStopState (failStart_run 0) = some [] ∧
    engineStopState (failStart_run 1) = some [("i", 0)] :=
  ⟨fun _ => rfl, rfl, rfl⟩

/-! ## Claim C5 -/

/-- Claim C5 counterexample: at `n = 2^53 + 1` the code's double-precision
`math.ceil(n / 2**30)` rounds `n` to `2^53` before dividing and returns
`"8388608G"`, while the exact integer computation claimed by the spec gives
`"8388609G"`. -/
theorem C5_float_vs_integer_counterexample :
    slurm_format_memory (2 ^ 53 + 1) = "8388608G" ∧
    slurm_format_memory_spec (2 ^ 53 + 1) = "8388609G" ∧
    slurm_format_memory (2 ^ 53 + 1) ≠ slurm_format_memory_spec (2 ^ 53 + 1) := by
  have hlog : Nat.log2 (2 ^ 53 + 1) = 53 := by
    rw [Nat.log2_eq_log_two]
    exact Nat.log_eq_of_pow_le_of_lt_pow (by norm_num) (by norm_num)
  have hfr : floatRound53 (2 ^ 53 + 1) = 2 ^ 53 := by
    unfold floatRound53
    rw [if_neg (by norm_num), hlog]
    norm_num
  have h1 : slurm_format_memory (2 ^ 53 + 1) = "8388608G" := by
    unfold slurm_format_memory
    rw [if_pos (by norm_num), hfr]
    rfl
  have h2 : slurm_format_memory_spec (2 ^ 53 + 1) = "8388609G" := by
    unfold slurm_format_memory_spec
    rw [if_pos (by norm_num)]
    rfl
  refine ⟨h1, h2, ?_⟩
  rw [h1, h2]
  decide

/-- Claim C5 (amended): for every byte count `n ≤ 2^53` — where a Python
float represents `n` exactly — `slurm_format_memory` returns exactly the
integer-ceiling formatting at the claimed thresholds. -/
theorem C5_memory_format_integer_below_2_53 (n : Nat) (h : n ≤ 2 ^ 53) :
    slurm_format_memory n = slurm_format_memory_spec n := by
  unfold slurm_format_memory slurm_format_memory_spec
  rw [floatRound53_eq_self h]

/-- Witness for C5: the amended theorem applied at `n = 10·2^30 + 1`. -/
theorem C5_memory_format_witness :
    10 * 1024 ^ 3 + 1 ≤ 2 ^ 53 ∧
    slurm_format_memory (10 * 1024 ^ 3 + 1) =
      slurm_format_memory_spec (10 * 1024 ^ 3 + 1) :=
  ⟨by norm_num, C5_memory_format_integer_below_2_53 (10 * 1024 ^ 3 + 1) (by norm_num)⟩

/-! ## Claim C3 -/

/-- Claim C3 (code bug): evaluating the submit-command builder shows the
claim false on the code.  With a non-empty `account` the builder raises
`AttributeError` instead of appending `--account=<account>`; with a
non-empty `qos` the command list receives the characters of `--qos=<qos>`
one by one instead of the single argument; only with both empty does the
command list contain neither flag, as intended. -/
theorem C3_submit_cmd_flags_eval :
    get_submit_cmd_env_stdin ⟨"sbatch", "", "proj", ""⟩ "/stage" "log" 1 "1G" [] =
      .error (.attributeError "list object has no attribute account") ∧
    get_submit_cmd_env_stdin ⟨"sbatch", "", "", "hi"⟩ "/stage" "log" 1 "1G" [] =
      .ok ["sbatch", "--parsable", "--job-name=dask-gateway",
           "-", "-", "q", "o", "s", "=", "h", "i",
           "--chdir=/stage", "--output=/stage/log", "--cpus-per-task=1",
           "--mem=1G", "--export="] ∧
    get_submit_cmd_env_stdin ⟨"sbatch", "", "", ""⟩ "/stage" "log" 1 "1G" [] =
      .ok ["sbatch", "--parsable", "--job-name=dask-gateway",
           "--chdir=/stage", "--output=/stage/log", "--cpus-per-task=1",
           "--mem=1G", "--export="] :=
  ⟨rfl, rfl, rfl⟩

/-! ## Claim C6 -/

/-- Claim C6: `do_as_user` raises whenever the launcher process exits
nonzero, regardless of any response; with exit 0 and an `ok: false`
response it raises with the reported error; it returns the
`(returncode, stdout, stderr)` triple exactly when the process exits 0 and
the response is `ok`. -/
theorem C6_do_as_user_outcomes (decode : String → Option LauncherResponse)
    (procRc : Int) (stdout stderr : String) :
    (procRc ≠ 0 → do_as_user decode procRc stdout stderr =
       .error (.launcherFailed procRc stdout stderr)) ∧
    (procRc = 0 → ∀ e, decode stdout = some (.err e) →
       do_as_user decode procRc stdout stderr = .error (.reported e)) ∧
    (procRc = 0 → ∀ c o er, decode stdout = some (.ok c o er) →
       do_as_user decode procRc stdout stderr = .ok (c, o, er)) ∧
    (∀ t, do_as_user decode procRc stdout stderr = .ok t →
       procRc = 0 ∧ decode stdout = some (.ok t.1 t.2.1 t.2.2)) := by
  refine ⟨?_, ?_, ?_, ?_⟩
  · intro h
    unfold do_as_user
    rw [if_pos h]
  · intro h e he
    unfold do_as_user
    rw [if_neg (fun hn => hn h), he]
  · intro h c o er he
    unfold do_as_user
    rw [if_neg (fun hn => hn h), he]
  · intro t ht
    unfold do_as_user at ht
    by_cases h : procRc ≠ 0
    · rw [if_pos h] at ht
      cases ht
    · rw [if_neg h] at ht
      refine ⟨not_not.mp h, ?_⟩
      cases hd : decode stdout with
      | none => rw [hd] at ht; cases ht
      | some r =>
        cases r with
        | err e => rw [hd] at ht; cases ht
        | ok c o er =>
          rw [hd] at ht
          cases ht
          rfl

/-- Witness for C6: the launcher process exits 3; despite an `ok: true`
response, `do_as_user` raises the launcher error. -/
theorem C6_do_as_user_witness :
    do_as_user (fun _ => some (.ok 0 "out" "err")) 3 "raw" "procerr" =
      .error (.launcherFailed 3 "raw" "procerr") :=
  (C6_do_as_user_outcomes (fun _ => some (.ok 0 "out" "err")) 3 "raw" "procerr").1
    (by decide)

/-! ## Claim C2 -/

/-- Claim C2: `stop_cluster` returns without invoking the cancel command
when the cluster state has no `job_id`; with a `job_id` present, a cancel
command that exits nonzero with `"Job has finished"` in its stderr still
lets `stop_cluster` complete successfully; `stop_worker` behaves the same
on the worker state. -/
theorem C2_stop_tolerates_missing_and_finished_jobs
    (decode : String → Option LauncherResponse) (launch : LauncherRun)
    (cluster_state worker_state : JobState) :
    (alistGet "job_id" cluster_state = none →
       stop_cluster decode launch cluster_state = .ok []) ∧
    (∀ job_id code out err, alistGet "job_id" cluster_state = some job_id →
       (launch job_id).1 = 0 →
       decode (launch job_id).2.1 = some (.ok code out err) →
       code ≠ 0 → strContains err "Job has finished" = true →
       stop_cluster decode launch cluster_state = .ok [job_id]) ∧
    (alistGet "job_id" worker_state = none →
       stop_worker decode launch worker_state = .ok []) ∧
    (∀ job_id code out err, alistGet "job_id" worker_state = some job_id →
       (launch job_id).1 = 0 →
       decode (launch job_id).2.1 = some (.ok code out err) →
       code ≠ 0 → strContains err "Job has finished" = true →
       stop_worker decode launch worker_state = .ok [job_id]) := by
  refine ⟨?_, ?_, ?_, ?_⟩
  · intro h
    unfold stop_cluster
    rw [h]
  · intro job_id code out err hjid hrc hdec hcode hfin
    unfold stop_cluster
    rw [hjid]
    unfold stop_job do_as_user
    simp [hrc, hdec, hfin]
  · intro h
    unfold stop_worker
    rw [h]
  · intro job_id code out err hjid hrc hdec hcode hfin
    unfold stop_worker
    rw [hjid]
    unfold stop_job do_as_user
    simp [hrc, hdec, hfin]

/-- Witness for C2: a concrete empty state returns with no cancel
invocation, and a state with job id `7` whose `scancel` exits 1 with
`"Job has finished"` in stderr still stops successfully. -/
theorem C2_stop_witness :
    stop_cluster (fun _ => some (.ok 1 "" "scancel: Job has finished already"))
      (fun _ => (0, "resp", "")) [] = .ok [] ∧
    stop_worker (fun _ => some (.ok 1 "" "scancel: Job has finished already"))
      (fun _ => (0, "resp", "")) [("job_id", "7")] = .ok ["7"] :=
  ⟨(C2_stop_tolerates_missing_and_finished_jobs
      (fun _ => some (.ok 1 "" "scancel: Job has finished already"))
      (fun _ => (0, "resp", "")) [] [("job_id", "7")]).1 rfl,
   (C2_stop_tolerates_missing_and_finished_jobs
      (fun _ => some (.ok 1 "" "scancel: Job has finished already"))
      (fun _ => (0, "resp", "")) [] [("job_id", "7")]).2.2.2
     "7" 1 "" "scancel: Job has finished already" rfl rfl rfl (by decide) (by decide)⟩

/-! ## Claim C7 -/

/-- Claim C7: after a successful submission returning `job_id`, the
jobqueue `start_cluster` yields exactly the single snapshot
`{job_id: <id>}`, then a true `is_job_running` verdict lets it complete
normally while a false verdict makes it raise an error naming the job id
and the cluster; `start_worker` behaves symmetrically, naming the worker. -/
theorem C7_jobqueue_staged_start (info : ClusterInfo)
    (decode : String → Option LauncherResponse) (procRc : Int)
    (stdout stderr : String) (verdict : Bool) (job_id : String)
    (h : start_job decode procRc stdout stderr = .ok job_id) :
    (start_cluster info decode procRc stdout stderr verdict).1 =
      [[("job_id", job_id)]] ∧
    (verdict = true →
      (start_cluster info decode procRc stdout stderr verdict).2 = .ok ()) ∧
    (verdict = false → ∃ msg,
      (start_cluster info decode procRc stdout stderr verdict).2 =
        .error (.jobFailed msg) ∧
      strContains msg job_id = true ∧
      strContains msg info.cluster_name = true) ∧
    (∀ worker_name : String,
      (start_worker worker_name decode procRc stdout stderr verdict).1 =
        [[("job_id", job_id)]] ∧
      (verdict = true →
        (start_worker worker_name decode procRc stdout stderr verdict).2 = .ok ()) ∧
      (verdict = false → ∃ msg,
        (start_worker worker_name decode procRc stdout stderr verdict).2 =
          .error (.jobFailed msg) ∧
        strContains msg job_id = true ∧
        strContains msg worker_name = true)) := by
  refine ⟨?_, ?_, ?_, ?_⟩
  · unfold start_cluster
    rw [h]
  · intro hv
    unfold start_cluster
    rw [h, hv]
    rfl
  · intro hv
    unfold start_cluster
    rw [h, hv]
    refine ⟨_, rfl, ?_, ?_⟩
    · exact strContains_parts _ "Job " job_id
        (" for cluster " ++ info.cluster_name ++ " failed, see logs for more information")
        (by simp [String.data_append])
    · exact strContains_parts _ ("Job " ++ job_id ++ " for cluster ") info.cluster_name
        " failed, see logs for more information"
        (by simp [String.data_append])
  · intro worker_name
    refine ⟨?_, ?_, ?_⟩
    · unfold start_worker
      rw [h]
    · intro hv
      unfold start_worker
      rw [h, hv]
      rfl
    · intro hv
      unfold start_worker
      rw [h, hv]
      refine ⟨_, rfl, ?_, ?_⟩
      · exact strContains_parts _ "Job " job_id
          (" for worker " ++ worker_name ++ " failed, see logs for more information")
          (by simp [String.data_append])
      · exact strContains_parts _ ("Job " ++ job_id ++ " for worker ") worker_name
          " failed, see logs for more information"
          (by simp [String.data_append])

/-- Witness for C7: a concrete successful submission (stdout `" 42\n"`,
job id `"42"`) with a true verdict: the single yielded snapshot and the
normal completion. -/
theorem C7_jobqueue_staged_start_witness :
    (start_cluster ⟨"clusterA", "alice"⟩ (fun _ => some (.ok 0 " 42\n" "")) 0
       "raw" "" true).1 = [[("job_id", "42")]] ∧
    (start_cluster ⟨"clusterA", "alice"⟩ (fun _ => some (.ok 0 " 42\n" "")) 0
       "raw" "" true).2 = .ok () :=
  ⟨(C7_jobqueue_staged_start ⟨"clusterA", "alice"⟩
      (fun _ => some (.ok 0 " 42\n" "")) 0 "raw" "" true "42" rfl).1,
   (C7_jobqueue_staged_start ⟨"clusterA", "alice"⟩
      (fun _ => some (.ok 0 " 42\n" "")) 0 "raw" "" true "42" rfl).2.1 rfl⟩

/-! ## Claim C4 -/

theorem mem_classifyLines_running (L : List (String × String)) (j : String) :
    j ∈ (classifyLines L).1 ↔ ∃ s, (j, s) ∈ L ∧ (s = "R" ∨ s = "CG") := by
  induction L with
  | nil => simp [classifyLines]
  | cons p rest ih =>
    obtain ⟨a, b⟩ := p
    by_cases h1 : b = "R" ∨ b = "CG"
    · simp only [classifyLines, if_pos h1, List.mem_cons, ih, Prod.mk.injEq]
      constructor
      · rintro (rfl | ⟨s, hs, hrc⟩)
        · exact ⟨b, Or.inl ⟨rfl, rfl⟩, h1⟩
        · exact ⟨s, Or.inr hs, hrc⟩
      · rintro ⟨s, (⟨rfl, rfl⟩ | hs), hrc⟩
        · exact Or.inl rfl
        · exact Or.inr ⟨s, hs, hrc⟩
    · by_cases h2 : b = "PD" ∨ b = "CF"
      · simp only [classifyLines, if_neg h1, if_pos h2, ih, List.mem_cons, Prod.mk.injEq]
        constructor
        · rintro ⟨s, hs, hrc⟩
          exact ⟨s, Or.inr hs, hrc⟩
        · rintro ⟨s, (⟨rfl, rfl⟩ | hs), hrc⟩
          · exact absurd hrc h1
          · exact ⟨s, hs, hrc⟩
      · simp only [classifyLines, if_neg h1, if_neg h2, ih, List.mem_cons, Prod.mk.injEq]
        constructor
        · rintro ⟨s, hs, hrc⟩
          exact ⟨s, Or.inr hs, hrc⟩
        · rintro ⟨s, (⟨rfl, rfl⟩ | hs), hrc⟩
          · exact absurd hrc h1
          · exact ⟨s, hs, hrc⟩

theorem mem_classifyLines_failed (L : List (String × String)) (j : String) :
    j ∈ (classifyLines L).2 ↔
      ∃ s, (j, s) ∈ L ∧ ¬(s = "R" ∨ s = "CG") ∧ ¬(s = "PD" ∨ s = "CF") := by
  induction L with
  | nil => simp [classifyLines]
  | cons p rest ih =>
    obtain ⟨a, b⟩ := p
    by_cases h1 : b = "R" ∨ b = "CG"
    · simp only [classifyLines, if_pos h1, ih, List.mem_cons, Prod.mk.injEq]
      constructor
      · rintro ⟨s, hs, hx⟩
        exact ⟨s, Or.inr hs, hx⟩
      · rintro ⟨s, (⟨rfl, rfl⟩ | hs), hx⟩
        · exact absurd h1 hx.1
        · exact ⟨s, hs, hx⟩
    · by_cases h2 : b = "PD" ∨ b = "CF"
      · simp only [classifyLines, if_neg h1, if_pos h2, ih, List.mem_cons, Prod.mk.injEq]
        constructor
        · rintro ⟨s, hs, hx⟩
          exact ⟨s, Or.inr hs, hx⟩
        · rintro ⟨s, (⟨rfl, rfl⟩ | hs), hx⟩
          · exact absurd h2 hx.2
          · exact ⟨s, hs, hx⟩
      · simp only [classifyLines, if_neg h1, if_neg h2, List.mem_cons, ih, Prod.mk.injEq]
        constructor
        · rintro (rfl | ⟨s, hs, hx⟩)
          · exact ⟨b, Or.inl ⟨rfl, rfl⟩, h1, h2⟩
          · exact ⟨s, Or.inr hs, hx⟩
        · rintro ⟨s, (⟨rfl, rfl⟩ | hs), hx⟩
          · exact Or.inl rfl
          · exact Or.inr ⟨s, hs, hx⟩

theorem alist_key_unique {L : List (String × String)} (hnd : (L.map Prod.fst).Nodup)
    {j s₁ s₂ : String} (h1 : (j, s₁) ∈ L) (h2 : (j, s₂) ∈ L) : s₁ = s₂ := by
  have := List.inj_on_of_nodup_map hnd h1 h2 rfl
  exact congrArg Prod.snd this

/-- Claim C4 counterexample: on the status output `"1 R\n1 F"`, which lists
job id `1` twice with different state codes, `parse_job_states` puts `1` in
the running list (for `R`) and in the failed list (for `F`), so the
claim's "no job id lands in both sets" fails as stated for arbitrary
outputs. -/
theorem C4_duplicate_id_counterexample :
    parse_job_states "1 R\n1 F" = .ok (["1"], ["1"]) ∧
    ¬(∀ j, ¬(j ∈ (["1"] : List String) ∧ j ∈ (["1"] : List String))) :=
  ⟨rfl, fun h => h "1" ⟨by decide, by decide⟩⟩

/-- Claim C4 (amended): for every status-command output whose well-formed
lines list pairwise-distinct job ids, `parse_job_states` classifies each
listed id by its state code — `R`/`CG` into the running set, `PD`/`CF`
into neither set, every other code into the failed set — and no job id
lands in both sets. -/
theorem C4_parse_job_states_classification (stdout : String)
    (L : List (String × String)) (r f : List String)
    (hL : parsedLines (pySplitLines stdout) = .ok L)
    (hp : parse_job_states stdout = .ok (r, f))
    (hnd : (L.map Prod.fst).Nodup) :
    (∀ j s, (j, s) ∈ L →
      ((s = "R" ∨ s = "CG") → j ∈ r ∧ j ∉ f) ∧
      ((s = "PD" ∨ s = "CF") → j ∉ r ∧ j ∉ f) ∧
      (¬(s = "R" ∨ s = "CG") → ¬(s = "PD" ∨ s = "CF") → j ∈ f ∧ j ∉ r)) ∧
    (∀ j, ¬(j ∈ r ∧ j ∈ f)) := by
  have hrf : (r, f) = classifyLines L := by
    unfold parse_job_states at hp
    rw [hL] at hp
    exact (Except.ok.injEq _ _).mp hp.symm
  have hr : r = (classifyLines L).1 := by rw [← hrf]
  have hf : f = (classifyLines L).2 := by rw [← hrf]
  subst hr hf
  have hboth : ∀ j, ¬(j ∈ (classifyLines L).1 ∧ j ∈ (classifyLines L).2) := by
    intro j ⟨hjr, hjf⟩
    obtain ⟨s₁, hs₁, hrc₁⟩ := (mem_classifyLines_running L j).mp hjr
    obtain ⟨s₂, hs₂, hrc₂, _⟩ := (mem_classifyLines_failed L j).mp hjf
    exact hrc₂ (alist_key_unique hnd hs₂ hs₁ ▸ hrc₁)
  refine ⟨?_, hboth⟩
  intro j s hjs
  refine ⟨?_, ?_, ?_⟩
  · intro hrc
    have hjr : j ∈ (classifyLines L).1 := (mem_classifyLines_running L j).mpr ⟨s, hjs, hrc⟩
    exact ⟨hjr, fun hjf => hboth j ⟨hjr, hjf⟩⟩
  · intro hpd
    constructor
    · intro hjr
      obtain ⟨s', hs', hrc'⟩ := (mem_classifyLines_running L j).mp hjr
      rw [alist_key_unique hnd hs' hjs] at hrc'
      rcases hpd with h | h <;> rcases hrc' with h' | h' <;> simp [h] at h'
    · intro hjf
      obtain ⟨s', hs', _, hpd'⟩ := (mem_classifyLines_failed L j).mp hjf
      exact hpd' (alist_key_unique hnd hs' hjs ▸ hpd)
  · intro hrc hpd
    have hjf : j ∈ (classifyLines L).2 :=
      (mem_classifyLines_failed L j).mpr ⟨s, hjs, hrc, hpd⟩
    exact ⟨hjf, fun hjr => hboth j ⟨hjr, hjf⟩⟩

/-- Witness for C4: the amended theorem applied to the concrete output
`"1 R\n2 PD\n3 F"`, whose three lines carry distinct job ids: id `1` is
not in both sets. -/
theorem C4_parse_job_states_witness :
    ¬(("1" : String) ∈ (["1"] : List String) ∧ ("1" : String) ∈ (["3"] : List String)) :=
  (C4_parse_job_states_classification "1 R\n2 PD\n3 F"
    [("1", "R"), ("2", "PD"), ("3", "F")] ["1"] ["3"] rfl rfl (by decide)).2 "1"

end DaskGateway

/-! ## Claims C8, C9, C10: the job tracker -/

namespace DaskGateway

theorem alistGet_mem {α : Type} {j : String} {v : α} :
    ∀ {l : List (String × α)}, alistGet j l = some v → (j, v) ∈ l := by
  intro l
  induction l with
  | nil => intro h; cases h
  | cons p rest ih =>
    obtain ⟨k, w⟩ := p
    intro h
    by_cases hk : k = j
    · rw [alistGet, if_pos hk] at h
      cases h
      rw [hk]
      exact List.mem_cons_self _ _
    · rw [alistGet, if_neg hk] at h
      exact List.mem_cons_of_mem _ (ih h)

theorem alistGet_filter_ne {α : Type} {j j2 : String} (h : j ≠ j2) :
    ∀ l : List (String × α),
      alistGet j (l.filter (fun p => p.1 ≠ j2)) = alistGet j l := by
  intro l
  induction l with
  | nil => rfl
  | cons p rest ih =>
    obtain ⟨k, w⟩ := p
    by_cases hk : k = j2
    · have hdrop : ((k, w) :: rest).filter (fun p => p.1 ≠ j2) =
          rest.filter (fun p => p.1 ≠ j2) := by simp [List.filter, hk]
      rw [hdrop, ih, alistGet, if_neg (fun hkj : k = j => h (hkj ▸ hk))]
    · have hkeep : ((k, w) :: rest).filter (fun p => p.1 ≠ j2) =
          (k, w) :: rest.filter (fun p => p.1 ≠ j2) := by simp [List.filter, hk]
      rw [hkeep]
      by_cases hkj : k = j
      · rw [alistGet, if_pos hkj, alistGet, if_pos hkj]
      · rw [alistGet, if_neg hkj, alistGet, if_neg hkj, ih]

theorem alistGet_filter_self {α : Type} (j : String) :
    ∀ l : List (String × α), alistGet j (l.filter (fun p => p.1 ≠ j)) = none := by
  intro l
  induction l with
  | nil => rfl
  | cons p rest ih =>
    obtain ⟨k, w⟩ := p
    by_cases hk : k = j
    · have hdrop : ((k, w) :: rest).filter (fun p => p.1 ≠ j) =
          rest.filter (fun p => p.1 ≠ j) := by simp [List.filter, hk]
      rw [hdrop, ih]
    · have hkeep : ((k, w) :: rest).filter (fun p => p.1 ≠ j) =
          (k, w) :: rest.filter (fun p => p.1 ≠ j) := by simp [List.filter, hk]
      rw [hkeep, alistGet, if_neg hk, ih]

theorem alistGet_none_of_none_filter {α : Type} {j : String} (q : String × α → Bool) :
    ∀ {l : List (String × α)}, alistGet j l = none →
      alistGet j (l.filter q) = none := by
  intro l
  induction l with
  | nil => intro h; rfl
  | cons p rest ih =>
    obtain ⟨k, w⟩ := p
    intro h
    by_cases hk : k = j
    · rw [alistGet, if_pos hk] at h
      cases h
    · rw [alistGet, if_neg hk] at h
      by_cases hq : q (k, w)
      · rw [List.filter_cons_of_pos hq, alistGet, if_neg hk]
        exact ih h
      · rw [List.filter_cons_of_neg hq]
        exact ih h


theorem resolveJob_nextSlot (st : TrackerState) (j : String) (v : Bool) :
    (resolveJob st j v).nextSlot = st.nextSlot := by
  unfold resolveJob
  cases alistGet j st.jobs with
  | none => rfl
  | some fut => rfl

theorem resolveJob_absent {st : TrackerState} {j : String} (v : Bool)
    (h : alistGet j st.jobs = none) : resolveJob st j v = st := by
  unfold resolveJob
  rw [h]

theorem resolveJob_jobs_subset {st : TrackerState} {j : String} {v : Bool}
    {p : String × Nat} (hp : p ∈ (resolveJob st j v).jobs) : p ∈ st.jobs := by
  unfold resolveJob at hp
  cases h : alistGet j st.jobs with
  | none => rw [h] at hp; exact hp
  | some fut =>
    rw [h] at hp
    exact List.mem_of_mem_filter hp

theorem resolveJob_resolved_mono {st : TrackerState} {j : String} {v : Bool}
    {q : Nat × Bool} (hq : q ∈ st.resolved) : q ∈ (resolveJob st j v).resolved := by
  unfold resolveJob
  cases h : alistGet j st.jobs with
  | none => exact hq
  | some fut => exact List.mem_cons_of_mem _ hq

theorem resolveJob_lookup_ne {st : TrackerState} {j j2 : String} (v : Bool)
    (h : j ≠ j2) :
    alistGet j (resolveJob st j2 v).jobs = alistGet j st.jobs := by
  unfold resolveJob
  cases h2 : alistGet j2 st.jobs with
  | none => rfl
  | some fut => exact alistGet_filter_ne h st.jobs

theorem resolveJob_lookup_self (st : TrackerState) (j : String) (v : Bool) :
    alistGet j (resolveJob st j v).jobs = none := by
  unfold resolveJob
  cases h2 : alistGet j st.jobs with
  | none => exact h2
  | some fut => exact alistGet_filter_self j st.jobs

theorem resolveJob_lookup_none {st : TrackerState} {j : String} (j2 : String) (v : Bool)
    (h : alistGet j st.jobs = none) :
    alistGet j (resolveJob st j2 v).jobs = none := by
  unfold resolveJob
  cases h2 : alistGet j2 st.jobs with
  | none => exact h
  | some fut => exact alistGet_none_of_none_filter _ h

theorem foldResolve_nextSlot (v : Bool) :
    ∀ (L : List String) (st : TrackerState),
      (L.foldl (fun s j => resolveJob s j v) st).nextSlot = st.nextSlot := by
  intro L
  induction L with
  | nil => intro st; rfl
  | cons x xs ih =>
    intro st
    rw [List.foldl_cons, ih, resolveJob_nextSlot]

theorem foldResolve_resolved_mono {v : Bool} {q : Nat × Bool} :
    ∀ (L : List String) (st : TrackerState), q ∈ st.resolved →
      q ∈ (L.foldl (fun s j => resolveJob s j v) st).resolved := by
  intro L
  induction L with
  | nil => intro st h; exact h
  | cons x xs ih =>
    intro st h
    rw [List.foldl_cons]
    exact ih _ (resolveJob_resolved_mono h)

theorem foldResolve_jobs_subset {v : Bool} {p : String × Nat} :
    ∀ (L : List String) (st : TrackerState),
      p ∈ (L.foldl (fun s j => resolveJob s j v) st).jobs → p ∈ st.jobs := by
  intro L
  induction L with
  | nil => intro st h; exact h
  | cons x xs ih =>
    intro st h
    rw [List.foldl_cons] at h
    exact resolveJob_jobs_subset (ih _ h)

theorem foldResolve_lookup_not_mem {v : Bool} {j : String} :
    ∀ (L : List String) (st : TrackerState), j ∉ L →
      alistGet j (L.foldl (fun s j2 => resolveJob s j2 v) st).jobs =
        alistGet j st.jobs := by
  intro L
  induction L with
  | nil => intro st _; rfl
  | cons x xs ih =>
    intro st h
    rw [List.foldl_cons, ih _ (fun hx => h (List.mem_cons_of_mem _ hx)),
      resolveJob_lookup_ne v (fun hx : j = x => h (by rw [hx]; exact List.mem_cons_self x xs))]

theorem foldResolve_lookup_none {v : Bool} {j : String} :
    ∀ (L : List String) (st : TrackerState), alistGet j st.jobs = none →
      alistGet j (L.foldl (fun s j2 => resolveJob s j2 v) st).jobs = none := by
  intro L
  induction L with
  | nil => intro st h; exact h
  | cons x xs ih =>
    intro st h
    rw [List.foldl_cons]
    exact ih _ (resolveJob_lookup_none x v h)

theorem foldResolve_removes {v : Bool} {j : String} :
    ∀ (L : List String) (st : TrackerState), j ∈ L →
      alistGet j (L.foldl (fun s j2 => resolveJob s j2 v) st).jobs = none := by
  intro L
  induction L with
  | nil => intro st h; cases h
  | cons x xs ih =>
    intro st h
    rw [List.foldl_cons]
    by_cases hx : j = x
    · exact foldResolve_lookup_none xs _ (hx ▸ resolveJob_lookup_self st j v)
    · exact ih _ ((List.mem_cons.mp h).resolve_left hx)

theorem foldResolve_resolves {v : Bool} {j : String} {fut : Nat} :
    ∀ (L : List String) (st : TrackerState), j ∈ L →
      alistGet j st.jobs = some fut →
      (fut, v) ∈ (L.foldl (fun s j2 => resolveJob s j2 v) st).resolved := by
  intro L
  induction L with
  | nil => intro st h; cases h
  | cons x xs ih =>
    intro st h hget
    rw [List.foldl_cons]
    by_cases hx : j = x
    · have : (fut, v) ∈ (resolveJob st x v).resolved := by
        unfold resolveJob
        rw [← hx, hget]
        exact List.mem_cons_self _ _
      exact foldResolve_resolved_mono xs _ this
    · have hget2 : alistGet j (resolveJob st x v).jobs = some fut := by
        rw [resolveJob_lookup_ne v hx, hget]
      exact ih _ ((List.mem_cons.mp h).resolve_left hx) hget2


theorem alistGet_isEmpty_false {α : Type} {j : String} {v : α}
    {l : List (String × α)} (h : alistGet j l = some v) : l.isEmpty = false := by
  cases l with
  | nil => cases h
  | cons p rest => rfl

theorem resolveJob_inv {st : TrackerState} (j : String) (v : Bool)
    (h : TrackerInv st) : TrackerInv (resolveJob st j v) := by
  obtain ⟨hjb, hrb, hnd, hdisj⟩ := h
  unfold resolveJob
  cases hget : alistGet j st.jobs with
  | none => exact ⟨hjb, hrb, hnd, hdisj⟩
  | some fut =>
    have hmem : (j, fut) ∈ st.jobs := alistGet_mem hget
    refine ⟨?_, ?_, ?_, ?_⟩
    · intro p hp
      exact hjb p (List.mem_of_mem_filter hp)
    · intro q hq
      rcases List.mem_cons.mp hq with rfl | hq'
      · exact hjb _ hmem
      · exact hrb q hq'
    · exact hnd.sublist (List.Sublist.map _ (List.filter_sublist _))
    · intro p hp q hq
      have hpj : p ∈ st.jobs := List.mem_of_mem_filter hp
      have hpne : p.1 ≠ j := of_decide_eq_true (List.mem_filter.mp hp).2
      rcases List.mem_cons.mp hq with rfl | hq'
      · intro hcontra
        have hpeq : p = (j, fut) := List.inj_on_of_nodup_map hnd hpj hmem hcontra
        exact hpne (congrArg Prod.fst hpeq)
      · exact hdisj p hpj q hq'

theorem foldResolve_inv {v : Bool} :
    ∀ (L : List String) (st : TrackerState), TrackerInv st →
      TrackerInv (L.foldl (fun s j => resolveJob s j v) st) := by
  intro L
  induction L with
  | nil => intro st h; exact h
  | cons x xs ih =>
    intro st h
    rw [List.foldl_cons]
    exact ih _ (resolveJob_inv x v h)

theorem getOrInstallFuture_resolved_eq (st : TrackerState) (j : String) :
    (getOrInstallFuture st j).1.resolved = st.resolved := by
  unfold getOrInstallFuture
  cases hget : alistGet j st.jobs with
  | none => rfl
  | some fut => rfl

theorem is_job_running_resolved_eq (st : TrackerState) (j : String) :
    (is_job_running st j).1.resolved = st.resolved := by
  unfold is_job_running
  by_cases ht : st.hasTracker
  · rw [if_pos ht, getOrInstallFuture_resolved_eq]
  · rw [if_neg ht, getOrInstallFuture_resolved_eq]

theorem getOrInstallFuture_fresh {st : TrackerState} {j : String}
    (h : alistGet j st.jobs = none) :
    (getOrInstallFuture st j).2 = st.nextSlot ∧
    (getOrInstallFuture st j).1.nextSlot = st.nextSlot + 1 ∧
    alistGet j (getOrInstallFuture st j).1.jobs = some st.nextSlot := by
  unfold getOrInstallFuture
  rw [h]
  exact ⟨rfl, rfl, by rw [alistGet, if_pos rfl]⟩

theorem is_job_running_fresh {st : TrackerState} {j : String}
    (h : alistGet j st.jobs = none) :
    (is_job_running st j).2 = st.nextSlot ∧
    alistGet j (is_job_running st j).1.jobs = some st.nextSlot := by
  unfold is_job_running
  by_cases ht : st.hasTracker
  · rw [if_pos ht]
    exact ⟨(getOrInstallFuture_fresh h).1, (getOrInstallFuture_fresh h).2.2⟩
  · rw [if_neg ht]
    refine ⟨(getOrInstallFuture_fresh ?_).1, (getOrInstallFuture_fresh ?_).2.2⟩ <;> rfl

theorem getOrInstallFuture_inv {st : TrackerState} (j : String)
    (h : TrackerInv st) : TrackerInv (getOrInstallFuture st j).1 := by
  obtain ⟨hjb, hrb, hnd, hdisj⟩ := h
  unfold getOrInstallFuture
  cases hget : alistGet j st.jobs with
  | some fut => exact ⟨hjb, hrb, hnd, hdisj⟩
  | none =>
    refine ⟨?_, ?_, ?_, ?_⟩
    · intro p hp
      rcases List.mem_cons.mp hp with rfl | hp'
      · exact Nat.lt_succ_self _
      · exact Nat.lt_succ_of_lt (hjb p hp')
    · intro q hq
      exact Nat.lt_succ_of_lt (hrb q hq)
    · refine List.Nodup.cons ?_ hnd
      intro hmem
      rcases List.mem_map.mp hmem with ⟨p, hp, hsnd⟩
      exact absurd (hsnd ▸ hjb p hp) (lt_irrefl _)
    · intro p hp q hq
      rcases List.mem_cons.mp hp with rfl | hp'
      · exact fun hc => absurd (hc ▸ hrb q hq) (lt_irrefl _)
      · exact hdisj p hp' q hq

theorem is_job_running_inv {st : TrackerState} (j : String)
    (h : TrackerInv st) : TrackerInv (is_job_running st j).1 := by
  unfold is_job_running
  by_cases ht : st.hasTracker
  · rw [if_pos ht]
    exact getOrInstallFuture_inv j h
  · rw [if_neg ht]
    refine getOrInstallFuture_inv j ?_
    obtain ⟨hjb, hrb, hnd, hdisj⟩ := h
    exact ⟨(fun p hp => by cases hp), hrb, List.nodup_nil, (fun p hp => by cases hp)⟩


theorem getOrInstall_hasTracker (st : TrackerState) (j : String) :
    (getOrInstallFuture st j).1.hasTracker = st.hasTracker := by
  unfold getOrInstallFuture
  cases hget : alistGet j st.jobs with
  | some fut => rfl
  | none => rfl

theorem getOrInstall_entry (st : TrackerState) (j : String) :
    alistGet j (getOrInstallFuture st j).1.jobs = some (getOrInstallFuture st j).2 := by
  unfold getOrInstallFuture
  cases hget : alistGet j st.jobs with
  | some fut => exact hget
  | none => rw [alistGet, if_pos rfl]

theorem is_job_running_hasTracker (st : TrackerState) (j : String) :
    (is_job_running st j).1.hasTracker = true := by
  unfold is_job_running
  by_cases ht : st.hasTracker
  · rw [if_pos ht, getOrInstall_hasTracker]
    exact ht
  · rw [if_neg ht, getOrInstall_hasTracker]

theorem is_job_running_entry (st : TrackerState) (j : String) :
    alistGet j (is_job_running st j).1.jobs = some (is_job_running st j).2 := by
  unfold is_job_running
  by_cases ht : st.hasTracker
  · rw [if_pos ht]
    exact getOrInstall_entry _ _
  · rw [if_neg ht]
    exact getOrInstall_entry _ _

theorem is_job_running_found {st : TrackerState} {j : String} {fut : Nat}
    (ht : st.hasTracker = true) (hget : alistGet j st.jobs = some fut) :
    is_job_running st j = (st, fut) := by
  unfold is_job_running getOrInstallFuture
  rw [if_pos ht, hget]

/-- Claim C8: the first `is_job_running` call for a job id installs a fresh
result slot in the pending-interest map and returns it; a subsequent call
for the same id returns the same slot unchanged; and the background polling
task is created exactly once, lazily, on the first call ever (the
`hasTracker` flag flips to true with exactly one task creation, and later
calls create none). -/
theorem C8_is_job_running_slots (st : TrackerState) (job_id : String) :
    (st.hasTracker = false →
      (is_job_running st job_id).1.hasTracker = true ∧
      (is_job_running st job_id).1.tasksCreated = st.tasksCreated + 1) ∧
    (st.hasTracker = true →
      (is_job_running st job_id).1.tasksCreated = st.tasksCreated) ∧
    ((is_job_running st job_id).1.hasTracker = true) ∧
    (st.hasTracker = true → alistGet job_id st.jobs = none →
      (is_job_running st job_id).2 = st.nextSlot ∧
      alistGet job_id (is_job_running st job_id).1.jobs = some st.nextSlot) ∧
    (st.hasTracker = false →
      (is_job_running st job_id).2 = st.nextSlot ∧
      alistGet job_id (is_job_running st job_id).1.jobs = some st.nextSlot) ∧
    (∀ fut, st.hasTracker = true → alistGet job_id st.jobs = some fut →
      is_job_running st job_id = (st, fut)) ∧
    (is_job_running ((is_job_running st job_id).1) job_id =
      ((is_job_running st job_id).1, (is_job_running st job_id).2)) := by
  refine ⟨?_, ?_, ?_, ?_, ?_, ?_, ?_⟩
  · intro ht
    unfold is_job_running
    rw [if_neg (by simp [ht])]
    exact ⟨rfl, rfl⟩
  · intro ht
    unfold is_job_running getOrInstallFuture
    rw [if_pos ht]
    cases hget : alistGet job_id st.jobs with
    | some fut => rfl
    | none => rfl
  · exact is_job_running_hasTracker st job_id
  · intro ht hget
    unfold is_job_running
    rw [if_pos ht]
    exact ⟨(getOrInstallFuture_fresh hget).1, (getOrInstallFuture_fresh hget).2.2⟩
  · intro ht
    unfold is_job_running
    rw [if_neg (by simp [ht])]
    refine ⟨(getOrInstallFuture_fresh ?_).1, (getOrInstallFuture_fresh ?_).2.2⟩ <;> rfl
  · intro fut ht hget
    exact is_job_running_found ht hget
  · exact is_job_running_found (is_job_running_hasTracker st job_id)
      (is_job_running_entry st job_id)


theorem tick_eq_of_nonempty (st : TrackerState)
    (classify : List String → List String × List String)
    (hie : st.jobs.isEmpty = false) :
    job_state_tracker_tick st classify =
      ([st.jobs.map Prod.fst],
       ((classify (st.jobs.map Prod.fst)).2).foldl (fun s j => resolveJob s j false)
         (((classify (st.jobs.map Prod.fst)).1).foldl (fun s j => resolveJob s j true) st)) := by
  unfold job_state_tracker_tick
  rw [if_neg (by simp [hie])]

/-- Claim C9: a polling tick with a non-empty pending map invokes the
status command once with the full list of pending job ids (and an empty map
invokes nothing); every pending slot whose id is classified running is
resolved `true`, every one classified failed is resolved `false`, ids in
neither set keep their unresolved entry, and an id whose entry disappeared
from the weakly held map before resolution is tolerated (resolving it is a
no-op). -/
theorem C9_tracker_tick_resolution (st : TrackerState)
    (classify : List String → List String × List String) :
    (st.jobs = [] → job_state_tracker_tick st classify = ([], st)) ∧
    (st.jobs ≠ [] →
      (job_state_tracker_tick st classify).1 = [st.jobs.map Prod.fst]) ∧
    (∀ j fut, alistGet j st.jobs = some fut →
      (j ∈ (classify (st.jobs.map Prod.fst)).1 →
        (fut, true) ∈ (job_state_tracker_tick st classify).2.resolved) ∧
      (j ∉ (classify (st.jobs.map Prod.fst)).1 →
       j ∈ (classify (st.jobs.map Prod.fst)).2 →
        (fut, false) ∈ (job_state_tracker_tick st classify).2.resolved) ∧
      (j ∉ (classify (st.jobs.map Prod.fst)).1 →
       j ∉ (classify (st.jobs.map Prod.fst)).2 →
        alistGet j (job_state_tracker_tick st classify).2.jobs = some fut)) ∧
    (∀ (j : String) (v : Bool), alistGet j st.jobs = none →
      resolveJob st j v = st) := by
  refine ⟨?_, ?_, ?_, ?_⟩
  · intro h
    unfold job_state_tracker_tick
    rw [if_pos (by simp [h])]
  · intro h
    have hie : st.jobs.isEmpty = false := by
      cases hj : st.jobs with
      | nil => exact absurd hj h
      | cons p rest => rfl
    rw [tick_eq_of_nonempty st classify hie]
  · intro j fut hget
    have hie : st.jobs.isEmpty = false := alistGet_isEmpty_false hget
    rw [tick_eq_of_nonempty st classify hie]
    refine ⟨?_, ?_, ?_⟩
    · intro hr
      exact foldResolve_resolved_mono _ _ (foldResolve_resolves _ _ hr hget)
    · intro hnr hf
      have hget1 : alistGet j
          (((classify (st.jobs.map Prod.fst)).1).foldl
            (fun s j2 => resolveJob s j2 true) st).jobs = some fut := by
        rw [foldResolve_lookup_not_mem _ _ hnr, hget]
      exact foldResolve_resolves _ _ hf hget1
    · intro hnr hnf
      rw [foldResolve_lookup_not_mem _ _ hnf, foldResolve_lookup_not_mem _ _ hnr, hget]
  · intro j v h
    exact resolveJob_absent v h

/-- Claim C10: every future stored in the pending-interest map is
unresolved — the poller removes a job id's entry before resolving its slot,
so after a tick delivers a verdict for `j`, the map has no entry for `j`
and a later `is_job_running j` call installs a fresh slot, distinct from
the resolved one and itself unresolved. -/
theorem C10_pending_map_unresolved (st : TrackerState)
    (classify : List String → List String × List String) (j : String) (fut : Nat)
    (hinv : TrackerInv st)
    (hget : alistGet j st.jobs = some fut)
    (hver : j ∈ (classify (st.jobs.map Prod.fst)).1 ∨
            j ∈ (classify (st.jobs.map Prod.fst)).2) :
    TrackerInv (job_state_tracker_tick st classify).2 ∧
    (∀ p ∈ (job_state_tracker_tick st classify).2.jobs,
       ∀ q ∈ (job_state_tracker_tick st classify).2.resolved, p.2 ≠ q.1) ∧
    alistGet j (job_state_tracker_tick st classify).2.jobs = none ∧
    (is_job_running (job_state_tracker_tick st classify).2 j).2 ≠ fut ∧
    (∀ v : Bool,
       ((is_job_running (job_state_tracker_tick st classify).2 j).2, v) ∉
         (is_job_running (job_state_tracker_tick st classify).2 j).1.resolved) := by
  have hie : st.jobs.isEmpty = false := alistGet_isEmpty_false hget
  rw [tick_eq_of_nonempty st classify hie]
  have hinv2 : TrackerInv
      (((classify (st.jobs.map Prod.fst)).2).foldl (fun s j2 => resolveJob s j2 false)
        (((classify (st.jobs.map Prod.fst)).1).foldl
          (fun s j2 => resolveJob s j2 true) st)) :=
    foldResolve_inv _ _ (foldResolve_inv _ _ hinv)
  have hns : (((classify (st.jobs.map Prod.fst)).2).foldl
      (fun s j2 => resolveJob s j2 false)
      (((classify (st.jobs.map Prod.fst)).1).foldl
        (fun s j2 => resolveJob s j2 true) st)).nextSlot = st.nextSlot := by
    rw [foldResolve_nextSlot, foldResolve_nextSlot]
  have hnone : alistGet j
      (((classify (st.jobs.map Prod.fst)).2).foldl
        (fun s j2 => resolveJob s j2 false)
        (((classify (st.jobs.map Prod.fst)).1).foldl
          (fun s j2 => resolveJob s j2 true) st)).jobs = none := by
    rcases hver with hr | hf
    · exact foldResolve_lookup_none _ _ (foldResolve_removes _ _ hr)
    · exact foldResolve_removes _ _ hf
  have hfut_lt : fut < st.nextSlot := hinv.1 (j, fut) (alistGet_mem hget)
  have hslot : (is_job_running
      (((classify (st.jobs.map Prod.fst)).2).foldl
        (fun s j2 => resolveJob s j2 false)
        (((classify (st.jobs.map Prod.fst)).1).foldl
          (fun s j2 => resolveJob s j2 true) st)) j).2 = st.nextSlot := by
    rw [(is_job_running_fresh hnone).1, hns]
  refine ⟨hinv2, hinv2.2.2.2, hnone, ?_, ?_⟩
  · rw [hslot]
    exact fun heq => absurd (heq ▸ hfut_lt) (lt_irrefl _)
  · intro v hmem
    rw [hslot, is_job_running_resolved_eq] at hmem
    have := hinv2.2.1 _ hmem
    rw [hns] at this
    exact absurd this (lt_irrefl _)

/-- Witness for C8: a fresh manager (no tracker task); the first call for
job id `a` spawns the tracker task. -/
theorem C8_is_job_running_witness :
    (is_job_running ⟨false, 0, [], 5, []⟩ "a").1.hasTracker = true ∧
    (is_job_running ⟨false, 0, [], 5, []⟩ "a").1.tasksCreated = 0 + 1 :=
  (C8_is_job_running_slots ⟨false, 0, [], 5, []⟩ "a").1 rfl

/-- Witness for C9: three tracked jobs; the status classification reports
`a` running, so slot `0` is resolved `true` by the tick. -/
theorem C9_tracker_tick_witness :
    ((0 : Nat), true) ∈
      (job_state_tracker_tick ⟨true, 1, [("a", 0), ("b", 1), ("c", 2)], 3, []⟩
        (fun _ => (["a"], ["b"]))).2.resolved :=
  ((C9_tracker_tick_resolution ⟨true, 1, [("a", 0), ("b", 1), ("c", 2)], 3, []⟩
      (fun _ => (["a"], ["b"]))).2.2.1 "a" 0 rfl).1 (by decide)

/-- Witness for C10: after the tick resolves job `a`, its entry is gone
from the pending map. -/
theorem C10_pending_map_witness :
    alistGet "a" (job_state_tracker_tick ⟨true, 1, [("a", 0), ("b", 1)], 2, []⟩
      (fun _ => (["a"], []))).2.jobs = none :=
  (C10_pending_map_unresolved ⟨true, 1, [("a", 0), ("b", 1)], 2, []⟩
      (fun _ => (["a"], [])) "a" 0 (by unfold TrackerInv; decide) rfl
      (Or.inl (by decide))).2.2.1

end DaskGateway
